import Mathlib

/-
Verification of the crop-region constraint engine of the image-cropper
application (src/src/App.tsx) against its natural-language specification.

The React component state is embedded as an explicit state record; each
event handler becomes a pure state-transition function.  JavaScript
numbers are modelled as rationals (ℚ); `Math.round` is modelled as
`jsRound` (floor of x + 1/2, which is JavaScript's rounding of ties
toward positive infinity).  Asynchronous collaborator results (image
decode, canvas `toBlob`) are passed in as explicit parameters.
-/

namespace ImgCrop

/-- Natural pixel size of a source image (the `originalDimensions` state,
App.tsx lines 97-100). -/
structure Dims where
  width : ℚ
  height : ℚ
deriving DecidableEq

/-- The `Area` interface of App.tsx lines 61-66: a crop rectangle in
source-pixel coordinates. -/
@[ext] structure Area where
  x : ℚ
  y : ℚ
  width : ℚ
  height : ℚ
deriving DecidableEq

/-- The `Point` interface of App.tsx lines 57-60. -/
structure Point where
  x : ℚ
  y : ℚ
deriving DecidableEq

/-- `AspectRatios.FREE` constant (App.tsx line 86). -/
def AspectRatios.FREE : ℚ := 0

/-- `AspectRatios.ORIGINAL` constant (App.tsx line 87). -/
def AspectRatios.ORIGINAL : ℚ := -1

/-- `AspectRatios.SQUARE` constant (App.tsx line 88). -/
def AspectRatios.SQUARE : ℚ := 1

/-- The four editable fields of the crop rectangle (the `property`
argument of `handleCropAreaChange`, App.tsx line 352). -/
inductive CropField
  | x
  | y
  | width
  | height
deriving DecidableEq

/-- The `CropInfo` interface (App.tsx lines 68-72).  The `dimensions`
string "W x H" is kept as the structured pair of the two unrounded
rational values that are interpolated into it; `timestamp` is an
abstract clock value supplied by the caller. -/
structure CropInfo where
  id : ℕ
  dimensions : ℚ × ℚ
  timestamp : ℕ
deriving DecidableEq

/-- The `ImageData` interface (App.tsx lines 74-83).  `id` abstracts the
`nanoid()` string; the `file`/`url` handles are dropped because no claim
depends on them. -/
structure ImageData where
  id : ℕ
  name : String
  size : ℕ
  cropped : Bool
  cropHistory : List CropInfo
  lastCrop : Option Area
deriving DecidableEq

/-- A dropped file as seen by `onDrop` (App.tsx line 112): its name, its
byte size, and whether its MIME type starts with "image/". -/
structure FileRec where
  name : String
  size : ℕ
  isImage : Bool
deriving DecidableEq

/-- The component state of `App` (the useState hooks of App.tsx lines
92-106). -/
structure AppState where
  images : List ImageData
  currentImage : Option ImageData
  crop : Point
  zoom : ℚ
  aspectRatio : ℚ
  originalDimensions : Dims
  cropArea : Area
deriving DecidableEq

/-- The initial component state (the useState initializers, App.tsx
lines 92-106): no images, no current image, crop (0,0), zoom 1, free
aspect ratio, zero dimensions, zero crop area. -/
def initialState : AppState :=
  { images := []
    currentImage := none
    crop := ⟨0, 0⟩
    zoom := 1
    aspectRatio := AspectRatios.FREE
    originalDimensions := ⟨0, 0⟩
    cropArea := ⟨0, 0, 0, 0⟩ }

/-- Step 1 of the bounds clamp in `handleCropAreaChange` (App.tsx line
380): `if (newCropArea.x < 0) newCropArea.x = 0`. -/
def clampXNeg (a : Area) : Area :=
  if a.x < 0 then { a with x := 0 } else a

/-- Step 2 of the bounds clamp (App.tsx line 381):
`if (newCropArea.y < 0) newCropArea.y = 0`. -/
def clampYNeg (a : Area) : Area :=
  if a.y < 0 then { a with y := 0 } else a

/-- Step 3 of the bounds clamp (App.tsx lines 382-384): if
`x + width > originalDimensions.width` then `x = width bound - width`. -/
def clampXOver (dims : Dims) (a : Area) : Area :=
  if a.x + a.width > dims.width then { a with x := dims.width - a.width } else a

/-- Step 4 of the bounds clamp (App.tsx lines 385-387): if
`y + height > originalDimensions.height` then `y = height bound - height`. -/
def clampYOver (dims : Dims) (a : Area) : Area :=
  if a.y + a.height > dims.height then { a with y := dims.height - a.height } else a

/-- The full bounds clamp of `handleCropAreaChange` (App.tsx lines
379-387), in source order: negative-x clamp, negative-y clamp, x
overflow shift, y overflow shift. -/
def clampAreaCode (dims : Dims) (a : Area) : Area :=
  clampYOver dims (clampXOver dims (clampYNeg (clampXNeg a)))

/-- Modelled from the spec: `clampToBounds(rect, bounds)` as the spec
words it — first shift `x` (and `y`) left just enough to fit, THEN clamp
`x, y` to be nonnegative.  Kept separate from `clampAreaCode` (the
source's order) so the two can be compared. -/
def clampToBounds_specOrder (a : Area) (b : Dims) : Area :=
  clampYNeg (clampXNeg (clampYOver b (clampXOver b a)))

/-- `newCropArea[property] = value` (App.tsx line 357). -/
def applyField (a : Area) : CropField → ℚ → Area
  | .x, v => { a with x := v }
  | .y, v => { a with y := v }
  | .width, v => { a with width := v }
  | .height, v => { a with height := v }

/-- The aspect-ratio derivation of `handleCropAreaChange` (App.tsx lines
359-377): with a fixed positive ratio, a width edit derives
`height = value / aspectRatio` and a height edit derives
`width = value * aspectRatio`; with the Original lock and known
dimensions, the same with `originalRatio = width / height`; otherwise no
derivation. -/
def applyRatioDerivation (aspectRatio : ℚ) (dims : Dims) (property : CropField)
    (value : ℚ) (a : Area) : Area :=
  if aspectRatio > 0 then
    match property with
    | .width => { a with height := value / aspectRatio }
    | .height => { a with width := value * aspectRatio }
    | _ => a
  else if aspectRatio = AspectRatios.ORIGINAL ∧ dims.width > 0 then
    match property with
    | .width => { a with height := value / (dims.width / dims.height) }
    | .height => { a with width := value * (dims.width / dims.height) }
    | _ => a
  else a

/-- `handleCropAreaChange` (App.tsx lines 352-391) as a function on the
crop rectangle: set the named field, run the aspect-ratio derivation,
then run the four clamp steps. -/
def handleCropAreaChange (aspectRatio : ℚ) (dims : Dims) (cropArea : Area)
    (property : CropField) (value : ℚ) : Area :=
  clampAreaCode dims (applyRatioDerivation aspectRatio dims property value
    (applyField cropArea property value))

/-- `adjustCropAreaToRatio` (App.tsx lines 330-350): no-op when the
recorded image width is zero (falsy); otherwise derive
`newHeight = width / ratio` holding width, falling back to
`height = dims.height, width = dims.height * ratio` when that height
exceeds the image height.  Only width and height are written back. -/
def adjustCropAreaToRatio (dims : Dims) (cropArea : Area) (ratio : ℚ) : Area :=
  if dims.width = 0 then cropArea
  else
    let newWidth := cropArea.width
    let newHeight := newWidth / ratio
    if newHeight > dims.height then
      { cropArea with width := dims.height * ratio, height := dims.height }
    else
      { cropArea with width := newWidth, height := newHeight }

/-- `handleAspectRatioChange` (App.tsx lines 308-328): always records
the new lock value; adjusts the crop area only for the Original lock
with known width, or for a positive fixed ratio.  Returns (new
aspectRatio state, new cropArea state). -/
def handleAspectRatioChange (dims : Dims) (cropArea : Area) (value : ℚ) : ℚ × Area :=
  let newArea :=
    if value = AspectRatios.FREE then cropArea
    else if value = AspectRatios.ORIGINAL ∧ dims.width > 0 then
      adjustCropAreaToRatio dims cropArea (dims.width / dims.height)
    else if value > 0 then adjustCropAreaToRatio dims cropArea value
    else cropArea
  (value, newArea)

/-- `handleOpenCropper` (App.tsx lines 198-213) as a state transition:
stores the image as current; with no last crop it resets crop point,
zoom and crop area; with a last crop it restores crop point and crop
area but touches neither zoom nor aspectRatio. -/
def openCropperOp (st : AppState) (image : ImageData) : AppState :=
  match image.lastCrop with
  | none =>
      { st with currentImage := some image, crop := ⟨0, 0⟩, zoom := 1,
                cropArea := ⟨0, 0, 0, 0⟩ }
  | some lc =>
      { st with currentImage := some image, crop := ⟨lc.x, lc.y⟩, cropArea := lc }

/-- `handleImageLoad` (App.tsx lines 286-306): once the hidden image
element reports its natural size, record the dimensions and, only when
the current image has no previous crop, seed the crop area to the full
image. -/
def imageLoadOp (st : AppState) (naturalWidth naturalHeight : ℚ) : AppState :=
  match st.currentImage with
  | none => st
  | some img =>
      let st2 := { st with originalDimensions := ⟨naturalWidth, naturalHeight⟩ }
      match img.lastCrop with
      | none => { st2 with cropArea := ⟨0, 0, naturalWidth, naturalHeight⟩ }
      | some _ => st2

/-- The zoom slider / `onZoomChange` handler (`setZoom`, App.tsx line
658): stores the value unchanged. -/
def setZoomOp (st : AppState) (value : ℚ) : AppState :=
  { st with zoom := value }

/-- `handleAspectRatioChange` lifted to the component state. -/
def aspectRatioChangeOp (st : AppState) (value : ℚ) : AppState :=
  let p := handleAspectRatioChange st.originalDimensions st.cropArea value
  { st with aspectRatio := p.1, cropArea := p.2 }

/-- `handleCropAreaChange` lifted to the component state (it also moves
the cropper view point to the new x/y, App.tsx line 390). -/
def cropAreaChangeOp (st : AppState) (property : CropField) (value : ℚ) : AppState :=
  let n := handleCropAreaChange st.aspectRatio st.originalDimensions st.cropArea
    property value
  { st with cropArea := n, crop := ⟨n.x, n.y⟩ }

/-- `handleCropSave` (App.tsx lines 219-284) as a state transition.  The
fresh `nanoid()` and `new Date()` of the new history record are passed
in as `fid` and `now`; `blobOk` tells whether the canvas `toBlob`
callback delivered a blob (the code updates state only inside
`if (blob)`).  The matching image gets `cropped = true`, the new record
appended to its history, and `lastCrop` set to the crop area exactly as
it is — the handler applies no rounding anywhere. -/
def handleCropSave (st : AppState) (fid now : ℕ) (blobOk : Bool) : AppState :=
  match st.currentImage with
  | none => st
  | some img =>
      if blobOk then
        { st with images := st.images.map (fun i =>
            if i.id = img.id then
              { i with cropped := true,
                       cropHistory := i.cropHistory ++
                         [⟨fid, (st.cropArea.width, st.cropArea.height), now⟩],
                       lastCrop := some st.cropArea }
            else i) }
      else st

/-- Build the `ImageData` pushed by `onDrop` for an accepted file
(App.tsx lines 155-163). -/
def mkImage (id : ℕ) (f : FileRec) : ImageData :=
  { id := id, name := f.name, size := f.size, cropped := false,
    cropHistory := [], lastCrop := none }

/-- The `filesToAdd.forEach` loop of `onDrop` (App.tsx lines 144-164):
each file is checked for a (name, size) duplicate against the
pre-existing `images` state only — never against the entries
accumulated earlier in the same batch. -/
def addFiles (images : List ImageData) : List FileRec → ℕ → List ImageData
  | [], _ => []
  | f :: rest, nextId =>
      if images.any (fun img => img.name == f.name && img.size == f.size) then
        addFiles images rest nextId
      else
        mkImage nextId f :: addFiles images rest (nextId + 1)

/-- `onDrop` (App.tsx lines 112-179): keep only image-typed files, bail
out if none, cap the batch at `10 - images.length`, run the duplicate
filter, and append the survivors to the collection. -/
def onDrop (images : List ImageData) (acceptedFiles : List FileRec)
    (idBase : ℕ) : List ImageData :=
  let validFiles := acceptedFiles.filter (fun f => f.isImage)
  if validFiles.isEmpty then images
  else images ++ addFiles images (validFiles.take (10 - images.length)) idBase

/-- JavaScript `Math.round`: floor of x + 1/2 (ties toward +∞). -/
def jsRound (q : ℚ) : ℤ := ⌊q + 1 / 2⌋

/-- Rounding every field of a rectangle to the nearest integer pixel,
as the spec's `commit` step describes. -/
def jsRoundArea (a : Area) : Area :=
  ⟨(jsRound a.x : ℚ), (jsRound a.y : ℚ), (jsRound a.width : ℚ), (jsRound a.height : ℚ)⟩

/-- Modelled from the spec: `projectToRatio(rect, ratio, bounds)`
exactly as the spec words it — the width-first height derivation with
height fallback, followed by a pass through `clampToBounds` (spec
order).  Kept separate from `adjustCropAreaToRatio` (the source, which
never clamps) so the two can be compared. -/
def projectToRatio_spec (rect : Area) (ratio : ℚ) (bounds : Dims) : Area :=
  let h := rect.width / ratio
  let r2 :=
    if h > bounds.height then
      { rect with width := bounds.height * ratio, height := bounds.height }
    else { rect with height := h }
  clampToBounds_specOrder r2 bounds

/-- Sample image entry with no crop history. -/
def imgA : ImageData := ⟨1, "a", 5, false, [], none⟩

/-- Second sample image entry with no crop history. -/
def imgB0 : ImageData := ⟨2, "b", 6, false, [], none⟩

/-- `imgB0` after a commit of the full 100 x 100 rectangle with record
id 7 at time 0. -/
def imgB1 : ImageData := ⟨2, "b", 6, true, [⟨7, (100, 100), 0⟩], some ⟨0, 0, 100, 100⟩⟩

/-- Third sample image entry. -/
def imgC : ImageData := ⟨3, "c", 9, false, [], none⟩

/-- A state editing `imgC` with a fractional crop rectangle
100.5 x 50.25. -/
def stFrac : AppState :=
  { initialState with images := [imgC], currentImage := some imgC,
                      cropArea := ⟨0, 0, 201 / 2, 201 / 4⟩ }

/-- A state editing `imgC` with a zero-sized crop rectangle. -/
def stEmpty : AppState :=
  { initialState with images := [imgC], currentImage := some imgC,
                      cropArea := ⟨0, 0, 0, 0⟩ }

@[simp] theorem clampXNeg_x (a : Area) :
    (clampXNeg a).x = if a.x < 0 then 0 else a.x := by
  unfold clampXNeg; split <;> rfl

@[simp] theorem clampXNeg_y (a : Area) : (clampXNeg a).y = a.y := by
  unfold clampXNeg; split <;> rfl

@[simp] theorem clampXNeg_width (a : Area) : (clampXNeg a).width = a.width := by
  unfold clampXNeg; split <;> rfl

@[simp] theorem clampXNeg_height (a : Area) : (clampXNeg a).height = a.height := by
  unfold clampXNeg; split <;> rfl

@[simp] theorem clampYNeg_y (a : Area) :
    (clampYNeg a).y = if a.y < 0 then 0 else a.y := by
  unfold clampYNeg; split <;> rfl

@[simp] theorem clampYNeg_x (a : Area) : (clampYNeg a).x = a.x := by
  unfold clampYNeg; split <;> rfl

@[simp] theorem clampYNeg_width (a : Area) : (clampYNeg a).width = a.width := by
  unfold clampYNeg; split <;> rfl

@[simp] theorem clampYNeg_height (a : Area) : (clampYNeg a).height = a.height := by
  unfold clampYNeg; split <;> rfl

@[simp] theorem clampXOver_x (dims : Dims) (a : Area) :
    (clampXOver dims a).x =
      if a.x + a.width > dims.width then dims.width - a.width else a.x := by
  unfold clampXOver; split <;> rfl

@[simp] theorem clampXOver_y (dims : Dims) (a : Area) : (clampXOver dims a).y = a.y := by
  unfold clampXOver; split <;> rfl

@[simp] theorem clampXOver_width (dims : Dims) (a : Area) :
    (clampXOver dims a).width = a.width := by
  unfold clampXOver; split <;> rfl

@[simp] theorem clampXOver_height (dims : Dims) (a : Area) :
    (clampXOver dims a).height = a.height := by
  unfold clampXOver; split <;> rfl

@[simp] theorem clampYOver_y (dims : Dims) (a : Area) :
    (clampYOver dims a).y =
      if a.y + a.height > dims.height then dims.height - a.height else a.y := by
  unfold clampYOver; split <;> rfl

@[simp] theorem clampYOver_x (dims : Dims) (a : Area) : (clampYOver dims a).x = a.x := by
  unfold clampYOver; split <;> rfl

@[simp] theorem clampYOver_width (dims : Dims) (a : Area) :
    (clampYOver dims a).width = a.width := by
  unfold clampYOver; split <;> rfl

@[simp] theorem clampYOver_height (dims : Dims) (a : Area) :
    (clampYOver dims a).height = a.height := by
  unfold clampYOver; split <;> rfl

theorem clampAreaCode_width (dims : Dims) (a : Area) :
    (clampAreaCode dims a).width = a.width := by
  simp [clampAreaCode]

theorem clampAreaCode_height (dims : Dims) (a : Area) :
    (clampAreaCode dims a).height = a.height := by
  simp [clampAreaCode]

/-- Claim C1: on a 400 x 400 image, the field edit width := 5 leaves width 5,
below the minimum dimension 10 that the spec requires after every call; and
on a 100 x 100 image, the field edit width := 200 produces x = -100,
violating x >= 0 — the handler never repairs either, so the five-invariant
preservation the claim states fails, contradicting the code's own comment
that the crop area is kept within image bounds. -/
theorem minDimNotEnforcedEval :
    handleCropAreaChange AspectRatios.FREE ⟨400, 400⟩ ⟨0, 0, 400, 400⟩ .width 5 =
      ⟨0, 0, 5, 400⟩ ∧
    (5 : ℚ) < 10 ∧
    handleCropAreaChange AspectRatios.FREE ⟨100, 100⟩ ⟨0, 0, 100, 100⟩ .width 200 =
      ⟨-100, 0, 200, 100⟩ ∧
    (-100 : ℚ) < 0 := by
  norm_num [handleCropAreaChange, applyRatioDerivation, applyField, clampAreaCode,
    clampXNeg, clampYNeg, clampXOver, clampYOver, AspectRatios.FREE,
    AspectRatios.ORIGINAL, Area.ext_iff]

/-- Claim C3 counterexample: open image a, load it, lock the ratio to 1, then
reopen the same image — the aspect lock is still 1, not Free, because
`handleOpenCropper` never resets `aspectRatio`. -/
theorem openKeepsLock_cex :
    (openCropperOp
      (aspectRatioChangeOp (imageLoadOp (openCropperOp initialState imgA) 100 100) 1)
      imgA).aspectRatio = 1 ∧
    (1 : ℚ) ≠ AspectRatios.FREE := by
  decide

/-- Claim C5 counterexample: with rect {0,0,20,5} and bounds 10 x 10 the
source clamp yields x = -10 (it clamps x >= 0 before shifting, and never
re-clamps), while the claim's shift-then-clamp order yields x = 0. -/
theorem clampOrder_cex :
    clampAreaCode ⟨10, 10⟩ ⟨0, 0, 20, 5⟩ = ⟨-10, 0, 20, 5⟩ ∧
    clampToBounds_specOrder ⟨0, 0, 20, 5⟩ ⟨10, 10⟩ = ⟨0, 0, 20, 5⟩ ∧
    clampAreaCode ⟨10, 10⟩ ⟨0, 0, 20, 5⟩ ≠
      clampToBounds_specOrder ⟨0, 0, 20, 5⟩ ⟨10, 10⟩ := by
  norm_num [clampAreaCode, clampToBounds_specOrder, clampXNeg, clampYNeg,
    clampXOver, clampYOver, Area.ext_iff]

/-- Claim C6 counterexample: on a 1000 x 800 image, projecting {0,600,400,200}
to ratio 1 yields {0,600,400,400}, whose bottom edge 1000 exceeds the image
height 800 — the source applies no clamp after the projection, while the
claim's projectToRatio-then-clampToBounds pipeline yields {0,400,400,400}. -/
theorem projectNoClamp_cex :
    adjustCropAreaToRatio ⟨1000, 800⟩ ⟨0, 600, 400, 200⟩ 1 = ⟨0, 600, 400, 400⟩ ∧
    projectToRatio_spec ⟨0, 600, 400, 200⟩ 1 ⟨1000, 800⟩ = ⟨0, 400, 400, 400⟩ ∧
    (600 : ℚ) + 400 > 800 ∧
    adjustCropAreaToRatio ⟨1000, 800⟩ ⟨0, 600, 400, 200⟩ 1 ≠
      projectToRatio_spec ⟨0, 600, 400, 200⟩ 1 ⟨1000, 800⟩ := by
  norm_num [adjustCropAreaToRatio, projectToRatio_spec, clampToBounds_specOrder,
    clampXNeg, clampYNeg, clampXOver, clampYOver, Area.ext_iff]

/-- Claim C9 counterexample: two identical files in one batch are both
accepted, so the collection ends with two entries sharing name "a" and byte
size 5 — `onDrop` checks each file only against the previously stored
images, never against the entries added earlier in the same batch. -/
theorem sameBatchDuplicate_cex :
    onDrop [] [⟨"a", 5, true⟩, ⟨"a", 5, true⟩] 0 =
      [⟨0, "a", 5, false, [], none⟩, ⟨1, "a", 5, false, [], none⟩] ∧
    (⟨0, "a", 5, false, [], none⟩ : ImageData).name =
      (⟨1, "a", 5, false, [], none⟩ : ImageData).name ∧
    (⟨0, "a", 5, false, [], none⟩ : ImageData).size =
      (⟨1, "a", 5, false, [], none⟩ : ImageData).size := by
  decide

/-- Claim C2 counterexample: committing the fractional rectangle
100.5 x 50.25 stores `lastCrop` and the history dimensions verbatim, not the
rounded rectangle 101 x 50 the claim requires. -/
theorem commitNoRounding_cex :
    (handleCropSave stFrac 7 3 true).images =
      [⟨3, "c", 9, true, [⟨7, (201 / 2, 201 / 4), 3⟩], some ⟨0, 0, 201 / 2, 201 / 4⟩⟩] ∧
    jsRoundArea ⟨0, 0, 201 / 2, 201 / 4⟩ = ⟨0, 0, 101, 50⟩ ∧
    some (⟨0, 0, 201 / 2, 201 / 4⟩ : Area) ≠
      some (jsRoundArea ⟨0, 0, 201 / 2, 201 / 4⟩) := by
  norm_num [handleCropSave, stFrac, initialState, imgC, jsRoundArea, jsRound,
    Area.ext_iff]

/-- Claim C8 counterexample: committing a 0 x 0 rectangle (with the export
callback delivering a blob) still appends a history record and overwrites
`lastCrop` — there is no empty-region check and no error path in
`handleCropSave`. -/
theorem emptyRegion_cex :
    (handleCropSave stEmpty 7 3 true).images =
      [⟨3, "c", 9, true, [⟨7, (0, 0), 3⟩], some ⟨0, 0, 0, 0⟩⟩] ∧
    (handleCropSave stEmpty 7 3 true).images ≠ stEmpty.images := by
  decide

/-- Claim C4 counterexample: image b is committed at zoom 1, image a is then
edited at zoom 3, and reopening b (which has a last crop) leaves zoom at 3 —
neither b's previously used zoom 1 nor the default 1 — because
`handleOpenCropper` does not touch zoom when a last crop exists. -/
theorem zoomCarryOver_cex :
    (imageLoadOp (openCropperOp { initialState with images := [imgB0, imgA] } imgB0)
      100 100).zoom = 1 ∧
    (handleCropSave
      (imageLoadOp (openCropperOp { initialState with images := [imgB0, imgA] } imgB0)
        100 100) 7 0 true).images = [imgB1, imgA] ∧
    (openCropperOp
      (setZoomOp
        (openCropperOp
          (handleCropSave
            (imageLoadOp
              (openCropperOp { initialState with images := [imgB0, imgA] } imgB0)
              100 100) 7 0 true)
          imgA) 3)
      imgB1).zoom = 3 ∧
    (3 : ℚ) ≠ 1 ∧
    (openCropperOp
      (setZoomOp
        (openCropperOp
          (handleCropSave
            (imageLoadOp
              (openCropperOp { initialState with images := [imgB0, imgA] } imgB0)
              100 100) 7 0 true)
          imgA) 3)
      imgB1).cropArea = ⟨0, 0, 100, 100⟩ := by
  decide

/-- Claim C3 (amended): the aspect lock is Free only in the initial
application state; opening the cropper never modifies the lock, so it
retains whichever value the previous edit session left, regardless of the
image or its history. -/
theorem openKeepsLock (st : AppState) (image : ImageData) :
    (openCropperOp st image).aspectRatio = st.aspectRatio ∧
    initialState.aspectRatio = AspectRatios.FREE := by
  refine ⟨?_, rfl⟩
  cases h : image.lastCrop <;> simp [openCropperOp, h]

/-- Claim C4 (amended): opening with a stored last crop seeds the rectangle
from it verbatim and leaves zoom exactly as the previous session left it;
opening without one resets zoom to 1 and the rectangle to 0 x 0 until the
image load reports its natural size, at which point the rectangle becomes
the full image. -/
theorem beginSeeding (st : AppState) (image : ImageData) (nW nH : ℚ) :
    (openCropperOp st image).zoom =
      (match image.lastCrop with | none => 1 | some _ => st.zoom) ∧
    (openCropperOp st image).cropArea =
      (match image.lastCrop with | none => ⟨0, 0, 0, 0⟩ | some lc => lc) ∧
    (imageLoadOp (openCropperOp st image) nW nH).cropArea =
      (match image.lastCrop with | none => ⟨0, 0, nW, nH⟩ | some lc => lc) ∧
    (imageLoadOp (openCropperOp st image) nW nH).zoom =
      (match image.lastCrop with | none => 1 | some _ => st.zoom) := by
  cases h : image.lastCrop <;> simp [openCropperOp, imageLoadOp, h]

/-- Claim C10: while the recorded image width is still 0, changing the
aspect lock to any value updates the stored lock but leaves the crop
rectangle completely untouched — the ratio projection is skipped by the
guard in `adjustCropAreaToRatio` (and, for Original, by the width check in
`handleAspectRatioChange`). -/
theorem lockBeforeDimsKeepsArea (dims : Dims) (a : Area) (v : ℚ)
    (h0 : dims.width = 0) :
    handleAspectRatioChange dims a v = (v, a) := by
  simp only [handleAspectRatioChange, adjustCropAreaToRatio, h0]
  split_ifs <;> simp_all

/-- Claim C10 witness: with unknown dimensions, locking ratio 1 keeps the
rectangle {1,2,3,4} and records the lock. -/
theorem lockBeforeDimsKeepsArea_witness :
    (⟨0, 0⟩ : Dims).width = 0 ∧
    handleAspectRatioChange ⟨0, 0⟩ ⟨1, 2, 3, 4⟩ 1 = (1, ⟨1, 2, 3, 4⟩) :=
  ⟨rfl, lockBeforeDimsKeepsArea ⟨0, 0⟩ ⟨1, 2, 3, 4⟩ 1 rfl⟩

/-- Claim C2 (amended): when the export callback delivers a blob, commit
leaves the image count unchanged and, for the image being edited, appends a
record carrying the fresh id, the current rectangle's (unrounded) width and
height, and the current time to its history, sets `lastCrop` to the current
rectangle verbatim (no rounding), and sets `cropped` to true; every other
image is untouched. -/
theorem commitUpdates (st : AppState) (img : ImageData) (fid now k : ℕ)
    (hcur : st.currentImage = some img) :
    (handleCropSave st fid now true).images.length = st.images.length ∧
    (handleCropSave st fid now true).images.get? k =
      (st.images.get? k).map (fun e =>
        if e.id = img.id then
          { e with cropped := true,
                   cropHistory := e.cropHistory ++
                     [⟨fid, (st.cropArea.width, st.cropArea.height), now⟩],
                   lastCrop := some st.cropArea }
        else e) := by
  constructor
  · simp [handleCropSave, hcur]
  · simp [handleCropSave, hcur, List.get?_map]

/-- Claim C2 witness: committing the fractional 100.5 x 50.25 rectangle on
`imgC` appends the record ⟨7, (100.5, 50.25), 3⟩ and stores the rectangle
verbatim. -/
theorem commitUpdates_witness :
    stFrac.currentImage = some imgC ∧
    ((handleCropSave stFrac 7 3 true).images.length = stFrac.images.length ∧
     (handleCropSave stFrac 7 3 true).images.get? 0 =
       (stFrac.images.get? 0).map (fun e =>
         if e.id = imgC.id then
           { e with cropped := true,
                    cropHistory := e.cropHistory ++
                      [⟨7, (stFrac.cropArea.width, stFrac.cropArea.height), 3⟩],
                    lastCrop := some stFrac.cropArea }
         else e)) :=
  ⟨rfl, commitUpdates stFrac imgC 7 3 0 rfl⟩

/-- Claim C8 (amended): commit performs no empty-region check and reports no
error: with a zero-width rectangle, a delivered blob still appends the
history record and overwrites `lastCrop`, and an undelivered blob leaves the
state unchanged without surfacing anything. -/
theorem emptyRegionNoCheck (st : AppState) (img e : ImageData) (fid now k : ℕ)
    (hcur : st.currentImage = some img) (hzero : st.cropArea.width = 0)
    (he : st.images.get? k = some e) (hid : e.id = img.id) :
    handleCropSave st fid now false = st ∧
    (handleCropSave st fid now true).images.get? k =
      some { e with cropped := true,
                    cropHistory := e.cropHistory ++
                      [⟨fid, (st.cropArea.width, st.cropArea.height), now⟩],
                    lastCrop := some st.cropArea } := by
  constructor
  · simp [handleCropSave, hcur]
  · have hmap : (handleCropSave st fid now true).images =
        st.images.map (fun i =>
          if i.id = img.id then
            { i with cropped := true,
                     cropHistory := i.cropHistory ++
                       [⟨fid, (st.cropArea.width, st.cropArea.height), now⟩],
                     lastCrop := some st.cropArea }
          else i) := by
      simp [handleCropSave, hcur]
    rw [hmap, List.get?_map, he]
    simp [hid]

/-- Claim C8 witness: the zero-sized commit on `imgC` goes through in full
when a blob is delivered, and is a silent no-op when it is not. -/
theorem emptyRegionNoCheck_witness :
    stEmpty.currentImage = some imgC ∧ stEmpty.cropArea.width = 0 ∧
    stEmpty.images.get? 0 = some imgC ∧ imgC.id = imgC.id ∧
    (handleCropSave stEmpty 7 3 false = stEmpty ∧
     (handleCropSave stEmpty 7 3 true).images.get? 0 =
       some { imgC with cropped := true,
                        cropHistory := imgC.cropHistory ++
                          [⟨7, (stEmpty.cropArea.width, stEmpty.cropArea.height), 3⟩],
                        lastCrop := some stEmpty.cropArea }) :=
  ⟨rfl, rfl, rfl, rfl, emptyRegionNoCheck stEmpty imgC imgC 7 3 0 rfl rfl rfl rfl⟩

theorem mem_addFiles (images : List ImageData) :
    ∀ (fs : List FileRec) (n : ℕ) (img : ImageData),
      img ∈ addFiles images fs n →
      ∀ prior ∈ images, ¬(prior.name = img.name ∧ prior.size = img.size) := by
  intro fs
  induction fs with
  | nil => intro n img h; simp [addFiles] at h
  | cons f rest ih =>
      intro n img h
      by_cases hd : images.any (fun i => i.name == f.name && i.size == f.size)
      · rw [addFiles, if_pos hd] at h
        exact ih n img h
      · rw [addFiles, if_neg hd] at h
        rcases List.mem_cons.mp h with h1 | h2
        · subst h1
          intro prior hp hmatch
          apply hd
          rw [List.any_eq_true]
          exact ⟨prior, hp, by simp [mkImage] at hmatch; simp [hmatch.1, hmatch.2]⟩
        · exact ih (n + 1) img h2

/-- Claim C9 (amended): every entry of the collection after `onDrop` either
was already stored or does not share its (name, byteSize) pair with any
previously stored entry — duplicates are rejected across batches, though not
within one batch. -/
theorem dedupAcrossBatches (images : List ImageData) (files : List FileRec)
    (idBase : ℕ) (img prior : ImageData)
    (h : img ∈ onDrop images files idBase) (hp : prior ∈ images) :
    img ∈ images ∨ ¬(prior.name = img.name ∧ prior.size = img.size) := by
  rw [onDrop] at h
  by_cases he : (files.filter (fun f => f.isImage)).isEmpty
  · rw [if_pos he] at h
    exact Or.inl h
  · rw [if_neg he] at h
    rcases List.mem_append.mp h with h1 | h2
    · exact Or.inl h1
    · exact Or.inr (mem_addFiles images _ idBase img h2 prior hp)

/-- Claim C9 witness: file b dropped on a collection holding image a is
accepted and shares no (name, size) pair with image a. -/
theorem dedupAcrossBatches_witness :
    mkImage 9 ⟨"b", 6, true⟩ ∈ onDrop [imgA] [⟨"b", 6, true⟩] 9 ∧
    imgA ∈ [imgA] ∧
    (mkImage 9 ⟨"b", 6, true⟩ ∈ [imgA] ∨
      ¬(imgA.name = (mkImage 9 ⟨"b", 6, true⟩).name ∧
        imgA.size = (mkImage 9 ⟨"b", 6, true⟩).size)) :=
  ⟨by decide, by decide,
    dedupAcrossBatches [imgA] [⟨"b", 6, true⟩] 9 (mkImage 9 ⟨"b", 6, true⟩) imgA
      (by decide) (by decide)⟩

/-- Claim C5 (amended): the source's clamp never changes width or height,
and — provided width and height fit inside the bounds on entry — it yields a
rectangle satisfying the containment invariant and agrees with the claim's
shift-then-clamp order; the two orders differ only when a dimension exceeds
its bound (where the source clamps x, y nonnegative first and never
re-clamps, so the shifted coordinate can stay negative). -/
theorem clampCodeBehavior (a : Area) (b : Dims)
    (hw : a.width ≤ b.width) (hh : a.height ≤ b.height) :
    (clampAreaCode b a).width = a.width ∧
    (clampAreaCode b a).height = a.height ∧
    0 ≤ (clampAreaCode b a).x ∧
    0 ≤ (clampAreaCode b a).y ∧
    (clampAreaCode b a).x + (clampAreaCode b a).width ≤ b.width ∧
    (clampAreaCode b a).y + (clampAreaCode b a).height ≤ b.height ∧
    clampAreaCode b a = clampToBounds_specOrder a b := by
  refine ⟨clampAreaCode_width b a, clampAreaCode_height b a, ?_, ?_, ?_, ?_, ?_⟩
  · simp only [clampAreaCode, clampYOver_x, clampXOver_x, clampYNeg_x,
      clampXNeg_x, clampXNeg_width, clampYNeg_width]
    split_ifs <;> linarith
  · simp only [clampAreaCode, clampYOver_y, clampXOver_y, clampYNeg_y,
      clampXNeg_y, clampXNeg_height, clampYNeg_height, clampXOver_height]
    split_ifs <;> linarith
  · simp only [clampAreaCode, clampYOver_x, clampYOver_width, clampXOver_x,
      clampXOver_width, clampYNeg_x, clampYNeg_width, clampXNeg_x, clampXNeg_width]
    split_ifs <;> linarith
  · simp only [clampAreaCode, clampYOver_y, clampYOver_height, clampXOver_y,
      clampXOver_height, clampYNeg_y, clampYNeg_height, clampXNeg_y, clampXNeg_height]
    split_ifs <;> linarith
  · ext
    · simp only [clampAreaCode, clampToBounds_specOrder, clampYOver_x,
        clampXOver_x, clampYNeg_x, clampXNeg_x, clampXNeg_width, clampYNeg_width,
        clampYOver_width, clampXOver_width]
      split_ifs <;> linarith
    · simp only [clampAreaCode, clampToBounds_specOrder, clampYOver_y,
        clampXOver_y, clampYNeg_y, clampXNeg_y, clampXNeg_height, clampYNeg_height,
        clampYOver_height, clampXOver_height]
      split_ifs <;> linarith
    · simp only [clampAreaCode, clampToBounds_specOrder, clampYOver_width,
        clampXOver_width, clampYNeg_width, clampXNeg_width]
    · simp only [clampAreaCode, clampToBounds_specOrder, clampYOver_height,
        clampXOver_height, clampYNeg_height, clampXNeg_height]

/-- Claim C5 witness: the rectangle {-5,-5,50,50} inside bounds 100 x 80 is
repaired to a contained rectangle and both clamp orders agree on it. -/
theorem clampCodeBehavior_witness :
    (50 : ℚ) ≤ 100 ∧ (50 : ℚ) ≤ 80 ∧
    ((clampAreaCode ⟨100, 80⟩ ⟨-5, -5, 50, 50⟩).width = (⟨-5, -5, 50, 50⟩ : Area).width ∧
     (clampAreaCode ⟨100, 80⟩ ⟨-5, -5, 50, 50⟩).height = (⟨-5, -5, 50, 50⟩ : Area).height ∧
     0 ≤ (clampAreaCode ⟨100, 80⟩ ⟨-5, -5, 50, 50⟩).x ∧
     0 ≤ (clampAreaCode ⟨100, 80⟩ ⟨-5, -5, 50, 50⟩).y ∧
     (clampAreaCode ⟨100, 80⟩ ⟨-5, -5, 50, 50⟩).x +
       (clampAreaCode ⟨100, 80⟩ ⟨-5, -5, 50, 50⟩).width ≤ (100 : ℚ) ∧
     (clampAreaCode ⟨100, 80⟩ ⟨-5, -5, 50, 50⟩).y +
       (clampAreaCode ⟨100, 80⟩ ⟨-5, -5, 50, 50⟩).height ≤ (80 : ℚ) ∧
     clampAreaCode ⟨100, 80⟩ ⟨-5, -5, 50, 50⟩ =
       clampToBounds_specOrder ⟨-5, -5, 50, 50⟩ ⟨100, 80⟩) :=
  ⟨by norm_num, by norm_num,
    clampCodeBehavior ⟨-5, -5, 50, 50⟩ ⟨100, 80⟩ (by norm_num) (by norm_num)⟩

/-- Claim C6 (amended): with known dimensions and a positive ratio, the
projection holds x and y fixed, recomputes height = width / ratio holding
width, and falls back to height = bounds.height with width = height * ratio
when that height exceeds the bounds; the result is NOT passed through any
clamp, so it can leave the image bounds.  Switching the lock to Free leaves
the rectangle unchanged, a positive lock value applies exactly this
unclamped projection, and the Original lock applies it with ratio
width / height. -/
theorem projectToRatioBehavior (dims : Dims) (a : Area) (r : ℚ)
    (h0 : dims.width ≠ 0) :
    (adjustCropAreaToRatio dims a r).x = a.x ∧
    (adjustCropAreaToRatio dims a r).y = a.y ∧
    (a.width / r ≤ dims.height →
      adjustCropAreaToRatio dims a r = { a with height := a.width / r }) ∧
    (dims.height < a.width / r →
      adjustCropAreaToRatio dims a r =
        { a with width := dims.height * r, height := dims.height }) ∧
    handleAspectRatioChange dims a AspectRatios.FREE = (AspectRatios.FREE, a) ∧
    (0 < r → handleAspectRatioChange dims a r = (r, adjustCropAreaToRatio dims a r)) ∧
    (0 < dims.width →
      handleAspectRatioChange dims a AspectRatios.ORIGINAL =
        (AspectRatios.ORIGINAL, adjustCropAreaToRatio dims a (dims.width / dims.height))) := by
  refine ⟨?_, ?_, ?_, ?_, ?_, ?_, ?_⟩
  · simp only [adjustCropAreaToRatio]
    split_ifs <;> rfl
  · simp only [adjustCropAreaToRatio]
    split_ifs <;> rfl
  · intro hle
    simp only [adjustCropAreaToRatio, if_neg h0]
    rw [if_neg (not_lt.mpr hle)]
  · intro hgt
    simp only [adjustCropAreaToRatio, if_neg h0]
    rw [if_pos hgt]
  · simp [handleAspectRatioChange]
  · intro hr
    simp only [handleAspectRatioChange, AspectRatios.FREE, AspectRatios.ORIGINAL]
    rw [if_neg (by linarith : ¬(r = 0)), if_neg (by rintro ⟨h1, -⟩; linarith),
      if_pos hr]
  · intro hW
    simp only [handleAspectRatioChange, AspectRatios.FREE, AspectRatios.ORIGINAL]
    rw [if_neg (by norm_num : ¬((-1 : ℚ) = 0)), if_pos ⟨by norm_num, hW⟩]

/-- Claim C6 witness: on a 1000 x 800 image, the projection of
{0,0,400,200} to ratio 1 yields {0,0,400,400} with x, y untouched, and
locking ratio 1 applies exactly that projection while Free leaves the
rectangle alone. -/
theorem projectToRatioBehavior_witness :
    ((1000 : ℚ) ≠ 0) ∧ ((400 : ℚ) / 1 ≤ 800) ∧ ((0 : ℚ) < 1) ∧
    ((adjustCropAreaToRatio ⟨1000, 800⟩ ⟨0, 0, 400, 200⟩ 1).x =
      (⟨0, 0, 400, 200⟩ : Area).x ∧
     (adjustCropAreaToRatio ⟨1000, 800⟩ ⟨0, 0, 400, 200⟩ 1).y =
      (⟨0, 0, 400, 200⟩ : Area).y) ∧
    adjustCropAreaToRatio ⟨1000, 800⟩ ⟨0, 0, 400, 200⟩ 1 =
      { (⟨0, 0, 400, 200⟩ : Area) with height := (400 : ℚ) / 1 } ∧
    handleAspectRatioChange ⟨1000, 800⟩ ⟨0, 0, 400, 200⟩ AspectRatios.FREE =
      (AspectRatios.FREE, ⟨0, 0, 400, 200⟩) ∧
    handleAspectRatioChange ⟨1000, 800⟩ ⟨0, 0, 400, 200⟩ 1 =
      (1, adjustCropAreaToRatio ⟨1000, 800⟩ ⟨0, 0, 400, 200⟩ 1) :=
  ⟨by norm_num, by norm_num, by norm_num,
    ⟨(projectToRatioBehavior ⟨1000, 800⟩ ⟨0, 0, 400, 200⟩ 1 (by norm_num)).1,
     (projectToRatioBehavior ⟨1000, 800⟩ ⟨0, 0, 400, 200⟩ 1 (by norm_num)).2.1⟩,
    (projectToRatioBehavior ⟨1000, 800⟩ ⟨0, 0, 400, 200⟩ 1 (by norm_num)).2.2.1
      (by norm_num),
    (projectToRatioBehavior ⟨1000, 800⟩ ⟨0, 0, 400, 200⟩ 1 (by norm_num)).2.2.2.2.1,
    (projectToRatioBehavior ⟨1000, 800⟩ ⟨0, 0, 400, 200⟩ 1 (by norm_num)).2.2.2.2.2.1
      (by norm_num)⟩

/-- Claim C7: under a fixed positive aspect lock, a width edit yields
exactly width = value and height = value / ratio, a height edit yields
exactly height = value and width = value * ratio (single pass: the driving
field keeps the typed value), and x or y edits never change width or
height; under the Original lock with known dimensions the same holds with
ratio = imageWidth / imageHeight, including that x or y edits leave both
dimensions untouched on that code path too. -/
theorem fieldEditUnderLock (dims : Dims) (a : Area) (r v : ℚ)
    (hr : r > 0) (hW : dims.width > 0) (hH : dims.height > 0) :
    (handleCropAreaChange r dims a .width v).width = v ∧
    (handleCropAreaChange r dims a .width v).height = v / r ∧
    (handleCropAreaChange r dims a .height v).height = v ∧
    (handleCropAreaChange r dims a .height v).width = v * r ∧
    (handleCropAreaChange r dims a .x v).width = a.width ∧
    (handleCropAreaChange r dims a .x v).height = a.height ∧
    (handleCropAreaChange r dims a .y v).width = a.width ∧
    (handleCropAreaChange r dims a .y v).height = a.height ∧
    (handleCropAreaChange AspectRatios.ORIGINAL dims a .width v).width = v ∧
    (handleCropAreaChange AspectRatios.ORIGINAL dims a .width v).height =
      v / (dims.width / dims.height) ∧
    (handleCropAreaChange AspectRatios.ORIGINAL dims a .height v).height = v ∧
    (handleCropAreaChange AspectRatios.ORIGINAL dims a .height v).width =
      v * (dims.width / dims.height) ∧
    (handleCropAreaChange AspectRatios.ORIGINAL dims a .x v).width = a.width ∧
    (handleCropAreaChange AspectRatios.ORIGINAL dims a .x v).height = a.height ∧
    (handleCropAreaChange AspectRatios.ORIGINAL dims a .y v).width = a.width ∧
    (handleCropAreaChange AspectRatios.ORIGINAL dims a .y v).height = a.height := by
  have hder : ∀ p value a0,
      applyRatioDerivation r dims p value a0 =
        (match p with
          | CropField.width => { a0 with height := value / r }
          | CropField.height => { a0 with width := value * r }
          | _ => a0) := by
    intro p value a0
    simp only [applyRatioDerivation, if_pos hr]
  have horig : ∀ p value a0,
      applyRatioDerivation AspectRatios.ORIGINAL dims p value a0 =
        (match p with
          | CropField.width => { a0 with height := value / (dims.width / dims.height) }
          | CropField.height => { a0 with width := value * (dims.width / dims.height) }
          | _ => a0) := by
    intro p value a0
    simp only [applyRatioDerivation, AspectRatios.ORIGINAL]
    rw [if_neg (by norm_num : ¬((-1 : ℚ) > 0)), if_pos ⟨by norm_num, hW⟩]
  refine ⟨?_, ?_, ?_, ?_, ?_, ?_, ?_, ?_, ?_, ?_, ?_, ?_, ?_, ?_, ?_, ?_⟩ <;>
    simp [handleCropAreaChange, clampAreaCode_width, clampAreaCode_height,
      hder, horig, applyField]

/-- Claim C7 witness: with ratio 2 on a 100 x 50 image, editing width to 40
gives width 40 and height 20, editing height to 40 gives height 40 and
width 80, and x or y edits keep the 30 x 30 dimensions; the Original lock
(ratio 2) behaves identically. -/
theorem fieldEditUnderLock_witness :
    ((2 : ℚ) > 0) ∧ ((100 : ℚ) > 0) ∧ ((50 : ℚ) > 0) ∧
    ((handleCropAreaChange 2 ⟨100, 50⟩ ⟨0, 0, 30, 30⟩ .width 40).width = 40 ∧
     (handleCropAreaChange 2 ⟨100, 50⟩ ⟨0, 0, 30, 30⟩ .width 40).height = 40 / 2 ∧
     (handleCropAreaChange 2 ⟨100, 50⟩ ⟨0, 0, 30, 30⟩ .height 40).height = 40 ∧
     (handleCropAreaChange 2 ⟨100, 50⟩ ⟨0, 0, 30, 30⟩ .height 40).width = 40 * 2 ∧
     (handleCropAreaChange 2 ⟨100, 50⟩ ⟨0, 0, 30, 30⟩ .x 40).width =
       (⟨0, 0, 30, 30⟩ : Area).width ∧
     (handleCropAreaChange 2 ⟨100, 50⟩ ⟨0, 0, 30, 30⟩ .x 40).height =
       (⟨0, 0, 30, 30⟩ : Area).height ∧
     (handleCropAreaChange 2 ⟨100, 50⟩ ⟨0, 0, 30, 30⟩ .y 40).width =
       (⟨0, 0, 30, 30⟩ : Area).width ∧
     (handleCropAreaChange 2 ⟨100, 50⟩ ⟨0, 0, 30, 30⟩ .y 40).height =
       (⟨0, 0, 30, 30⟩ : Area).height ∧
     (handleCropAreaChange AspectRatios.ORIGINAL ⟨100, 50⟩ ⟨0, 0, 30, 30⟩
       .width 40).width = 40 ∧
     (handleCropAreaChange AspectRatios.ORIGINAL ⟨100, 50⟩ ⟨0, 0, 30, 30⟩
       .width 40).height = 40 / ((100 : ℚ) / 50) ∧
     (handleCropAreaChange AspectRatios.ORIGINAL ⟨100, 50⟩ ⟨0, 0, 30, 30⟩
       .height 40).height = 40 ∧
     (handleCropAreaChange AspectRatios.ORIGINAL ⟨100, 50⟩ ⟨0, 0, 30, 30⟩
       .height 40).width = 40 * ((100 : ℚ) / 50) ∧
     (handleCropAreaChange AspectRatios.ORIGINAL ⟨100, 50⟩ ⟨0, 0, 30, 30⟩
       .x 40).width = (⟨0, 0, 30, 30⟩ : Area).width ∧
     (handleCropAreaChange AspectRatios.ORIGINAL ⟨100, 50⟩ ⟨0, 0, 30, 30⟩
       .x 40).height = (⟨0, 0, 30, 30⟩ : Area).height ∧
     (handleCropAreaChange AspectRatios.ORIGINAL ⟨100, 50⟩ ⟨0, 0, 30, 30⟩
       .y 40).width = (⟨0, 0, 30, 30⟩ : Area).width ∧
     (handleCropAreaChange AspectRatios.ORIGINAL ⟨100, 50⟩ ⟨0, 0, 30, 30⟩
       .y 40).height = (⟨0, 0, 30, 30⟩ : Area).height) :=
  ⟨by norm_num, by norm_num, by norm_num,
    fieldEditUnderLock ⟨100, 50⟩ ⟨0, 0, 30, 30⟩ 2 40 (by norm_num) (by norm_num)
      (by norm_num)⟩

end ImgCrop
